import Mathlib

/-!
Verification of the `rmlui/4.x` recipe (`recipes/rmlui/4.x/conanfile.py`).

The recipe is embedded shallowly: each lifecycle hook of the recipe class
(`config_options`, `configure`, `validate`, `generate`, `_patch_sources`,
`package_info`) becomes a pure Lean function over an explicit option record,
with Python strings modelled as `String`/`List Char` and fallible Python code
returning `Option`/`Except`.
-/

namespace Rmlui

/-! ## Data model: the declared options -/

/-- Values of the `font_interface` option: `["freetype", None]` in the recipe.
The Python value `None` is the `none` constructor. -/
inductive FontInterface where
  | freetype
  | none
deriving DecidableEq, BEq, Repr

/-- Values of the `matrix_mode` option: `["column_major", "row_major"]`. -/
inductive MatrixMode where
  | column_major
  | row_major
deriving DecidableEq, BEq, Repr

/-- The recipe's option set.  `fPIC` is an `Option Bool` because the recipe
deletes the option at configuration time (`del` / `rm_safe`); `none` models
the deleted state. -/
structure Options where
  enable_rtti_and_exceptions : Bool
  font_interface : FontInterface
  fPIC : Option Bool
  matrix_mode : MatrixMode
  shared : Bool
  with_lua_bindings : Bool
  with_thirdparty_containers : Bool
deriving DecidableEq, Repr

/-- The recipe's `default_options` table. -/
def default_options : Options where
  enable_rtti_and_exceptions := true
  font_interface := .freetype
  fPIC := some true
  matrix_mode := .column_major
  shared := false
  with_lua_bindings := false
  with_thirdparty_containers := true

/-! ## Variant resolution: `config_options` and `configure` -/

/-- `config_options`: on Windows the `fPIC` option is deleted
(`del self.options.fPIC`).  The platform is the string value of
`self.settings.os`. -/
def config_options (os : String) (o : Options) : Options :=
  if os = "Windows" then { o with fPIC := Option.none } else o

/-- `configure`: when `shared` is set, `fPIC` is removed
(`self.options.rm_safe("fPIC")`; removing an absent option is a no-op). -/
def configure (o : Options) : Options :=
  if o.shared then { o with fPIC := Option.none } else o

/-- The resolved option set: the orchestrator calls `config_options` first,
then `configure`. -/
def resolveOptions (os : String) (o : Options) : Options :=
  configure (config_options os o)

/-! ## Consumption metadata: `package_info` -/

/-- Consumer-facing metadata of `self.cpp_info`: preprocessor defines and
library names, in append order. -/
structure CppInfo where
  defines : List String
  libs : List String
deriving DecidableEq, Repr

/-- `package_info`: conditional appends to `cpp_info.defines` and
`cpp_info.libs`, in source order. -/
def package_info (o : Options) : CppInfo :=
  let c : CppInfo := ⟨[], []⟩
  let c := if o.matrix_mode = .row_major then
    { c with defines := c.defines ++ ["RMLUI_MATRIX_ROW_MAJOR"] } else c
  let c := if !o.enable_rtti_and_exceptions then
    { c with defines := c.defines ++ ["RMLUI_USE_CUSTOM_RTTI"] } else c
  let c := if !o.shared then
    { c with defines := c.defines ++ ["RMLUI_STATIC_LIB"] } else c
  let c := if !o.with_thirdparty_containers then
    { c with defines := c.defines ++ ["RMLUI_NO_THIRDPARTY_CONTAINERS"] } else c
  let c := if o.with_lua_bindings then
    { c with libs := c.libs ++ ["RmlLua"] } else c
  let c := { c with libs := c.libs ++ ["RmlDebugger"] }
  { c with libs := c.libs ++ ["RmlCore"] }

/-! ## Toolchain variables: `generate` -/

/-- A value assigned into `tc.variables`. -/
inductive TCValue where
  | vBool (b : Bool)
  | vStr (s : String)
deriving DecidableEq, Repr

/-- The characters Python's `re.escape` (3.7+) prefixes with a backslash:
the bytes of `'()[]\x7b\x7d?*+-|^$\\.&~# \t\n\r\v\f'`. -/
def reSpecialChars : List Char :=
  ['(', ')', '[', ']', '\x7b', '\x7d', '?', '*', '+', '-', '|', '^', '$',
   '\\', '.', '&', '~', '#', ' ', '\t', '\n', '\r', '\x0b', '\x0c']

/-- `re.escape` on a single character. -/
def reEscapeChar (c : Char) : List Char :=
  if c ∈ reSpecialChars then ['\\', c] else [c]

/-- `re.escape` on a character list. -/
def reEscapeList (cs : List Char) : List Char :=
  cs.foldr (fun c acc => reEscapeChar c ++ acc) []

/-- Python's `re.escape(dir)` as used in `generate`. -/
def reEscape (s : String) : String :=
  ⟨reEscapeList s.data⟩

/-- Python `is None` on the conan option wrapper
`self.options.font_interface` (line 92 of the recipe): `is` tests object
identity, and the wrapper object is never the `None` singleton, so the test
is false for every option value. -/
def fontInterfaceIsNone (_ : FontInterface) : Bool :=
  false

/-- `generate`: the assignments into `tc.variables`, in source order.
`robinHoodIncludedirs` stands for
`self.dependencies["robin-hood-hashing"].cpp_info.includedirs`. -/
def generate (o : Options) (robinHoodIncludedirs : List String) :
    List (String × TCValue) :=
  [("BUILD_LUA_BINDINGS", .vBool o.with_lua_bindings),
   ("BUILD_SAMPLES", .vBool false),
   ("CUSTOM_CONFIGURATION", .vBool true),
   ("CUSTOM_INCLUDE_DIRS",
     .vStr (String.intercalate ";" (robinHoodIncludedirs.map reEscape))),
   ("DISABLE_RTTI_AND_EXCEPTIONS", .vBool (!o.enable_rtti_and_exceptions)),
   ("ENABLE_PRECOMPILED_HEADERS", .vBool true),
   ("ENABLE_TRACY_PROFILING", .vBool false),
   ("MATRIX_ROW_MAJOR", .vBool (o.matrix_mode == MatrixMode.row_major)),
   ("NO_FONT_INTERFACE_DEFAULT", .vBool (fontInterfaceIsNone o.font_interface)),
   ("NO_THIRDPARTY_CONTAINERS", .vBool (!o.with_thirdparty_containers))]

/-! ## Version comparison: `lazy_lt_semver` and `validate` -/

/-- Python `v.split(".")` on the character list of a string: splits at every
separator, keeping empty pieces, and maps `""` to `[""]`. -/
def pySplit (sep : Char) : List Char → List (List Char)
  | [] => [[]]
  | c :: rest =>
    if c = sep then [] :: pySplit sep rest
    else
      match pySplit sep rest with
      | [] => [[c]]
      | t :: ts => (c :: t) :: ts

/-- The codepoints Python `int()` strips as surrounding whitespace, probed
from CPython 3.11 (`int("5" + chr(c)) == 5`). -/
def pyWhitespace : List Nat :=
  [0x9, 0xa, 0xb, 0xc, 0xd, 0x20, 0x85, 0xa0, 0x1680,
   0x2000, 0x2001, 0x2002, 0x2003, 0x2004, 0x2005, 0x2006, 0x2007,
   0x2008, 0x2009, 0x200a, 0x2028, 0x2029, 0x202f, 0x205f, 0x3000]

/-- Python whitespace test on a single character. -/
def pyIsSpace (c : Char) : Bool :=
  pyWhitespace.contains c.toNat

/-- First codepoint of every run of ten Unicode decimal digits (category
`Nd`, Unicode 14.0 as shipped with CPython 3.11, probed via `int(chr(c))`);
the codepoint at offset `d` inside a run has digit value `d`. -/
def pyNdRangeStarts : List Nat :=
  [48, 1632, 1776, 1984, 2406, 2534, 2662, 2790, 2918, 3046, 3174, 3302,
   3430, 3558, 3664, 3792, 3872, 4160, 4240, 6112, 6160, 6470, 6608, 6784,
   6800, 6992, 7088, 7232, 7248, 42528, 43216, 43264, 43472, 43504, 43600,
   44016, 65296, 66720, 68912, 69734, 69872, 69942, 70096, 70384, 70736,
   70864, 71248, 71360, 71472, 71904, 72016, 72784, 73040, 73120, 92768,
   92864, 93008, 120782, 120792, 120802, 120812, 120822, 123200, 123632,
   125264, 130032]

/-- The decimal value of a Unicode decimal digit, `none` for any other
character. -/
def pyDigitVal (c : Char) : Option Nat :=
  match pyNdRangeStarts.find?
      (fun s => decide (s ≤ c.toNat) && decide (c.toNat < s + 10)) with
  | some s => some (c.toNat - s)
  | Option.none => Option.none

/-- The whitespace stripping `int()` performs on its string argument. -/
def pyStrip (cs : List Char) : List Char :=
  ((cs.dropWhile pyIsSpace).reverse.dropWhile pyIsSpace).reverse

/-- Continuation of a digit run: single underscores are permitted between
digits (PEP 515), never doubled, leading or trailing. -/
def pyDigitsGo : Nat → List Char → Option Nat
  | acc, [] => some acc
  | acc, '_' :: c :: rest =>
    match pyDigitVal c with
    | some d => pyDigitsGo (acc * 10 + d) rest
    | Option.none => Option.none
  | _, ['_'] => Option.none
  | acc, c :: rest =>
    match pyDigitVal c with
    | some d => pyDigitsGo (acc * 10 + d) rest
    | Option.none => Option.none

/-- The body of a Python integer literal: a nonempty run of Unicode decimal
digits with optional single underscores between digits. -/
def pyDigitsUnd : List Char → Option Nat
  | [] => Option.none
  | c :: rest =>
    match pyDigitVal c with
    | some d => pyDigitsGo d rest
    | Option.none => Option.none

/-- Python `int(s)` on a version component: surrounding whitespace is
stripped, then an optional ASCII sign precedes a nonempty run of Unicode
decimal digits with single underscores allowed between digits; anything else
raises `ValueError`, modelled as `none`. -/
def pyInt (cs : List Char) : Option Int :=
  match pyStrip cs with
  | '-' :: rest => (pyDigitsUnd rest).map (fun n => -(n : Int))
  | '+' :: rest => (pyDigitsUnd rest).map (fun n => (n : Int))
  | ds => (pyDigitsUnd ds).map (fun n => (n : Int))

/-- The list comprehension `[int(v) for v in s.split(".")]`: evaluates
`int` left to right, the first failure aborting the whole comprehension. -/
def pyIntComponents : List (List Char) → Option (List Int)
  | [] => some []
  | c :: rest =>
    match pyInt c, pyIntComponents rest with
    | some n, some l => some (n :: l)
    | _, _ => Option.none

/-- `[int(v) for v in version.split(".")]` on a version string. -/
def versionInts (v : String) : Option (List Int) :=
  pyIntComponents (pySplit '.' v.data)

/-- Python `<` on two integer lists: lexicographic, with a strict prefix
smaller than the longer list. -/
def pyListLt : List Int → List Int → Bool
  | [], [] => false
  | [], _ :: _ => true
  | _ :: _, [] => false
  | a :: as_, b :: bs => if a < b then true else if b < a then false else pyListLt as_ bs

/-- `lazy_lt_semver` from `validate`: split both versions on `.`, convert the
components with `int`, truncate both lists to the shorter length and compare
with Python list `<`.  A component that `int` rejects raises `ValueError`,
modelled as `none`. -/
def lazy_lt_semver (v1 v2 : String) : Option Bool := do
  let lv1 ← versionInts v1
  let lv2 ← versionInts v2
  let min_length := min lv1.length lv2.length
  pure (pyListLt (lv1.take min_length) (lv2.take min_length))

/-- The `_minimum_compilers_version` table of the recipe. -/
def _minimum_compilers_version : List (String × String) :=
  [("apple-clang", "5.1"),
   ("clang", "3.4"),
   ("gcc", "5"),
   ("intel", "17"),
   ("sun-cc", "5.15"),
   ("Visual Studio", "15")]

/-- The `_minimum_cpp_standard` property of the recipe. -/
def _minimum_cpp_standard : Nat := 14

/-- Outcome of running `validate`: success (recording whether the
unknown-compiler warning was emitted), a raised `ConanInvalidConfiguration`,
or an uncaught Python `ValueError` escaping from `int`. -/
inductive ValidateOutcome where
  | ok (warned : Bool)
  | configurationError
  | valueError
deriving DecidableEq, Repr

/-- Modelled from the spec: `conan.tools.build.check_min_cppstd` is not part
of the recipe's sources; per the spec's language-standard rule it asserts the
declared C++ standard is `≥` the fixed minimum and raises
`ConfigurationError` otherwise. -/
def check_min_cppstd (cppstd minimum : Nat) : Bool :=
  decide (minimum ≤ cppstd)

/-- The body of `validate` after the cppstd gate: look the compiler up in
`_minimum_compilers_version`; warn (and succeed) on a miss, otherwise raise
`ConanInvalidConfiguration` exactly when `lazy_lt_semver` holds. -/
def validateCompiler (compiler version : String) : ValidateOutcome :=
  match _minimum_compilers_version.lookup compiler with
  | Option.none => .ok true
  | some min_version =>
    match lazy_lt_semver version min_version with
    | Option.none => .valueError
    | some true => .configurationError
    | some false => .ok false

/-- `validate`: the cppstd gate (`check_min_cppstd` when
`settings.compiler.cppstd` is set) followed by the compiler-minimum rule. -/
def validate (cppstd : Option Nat) (compiler version : String) :
    ValidateOutcome :=
  match cppstd with
  | some n =>
    if check_min_cppstd n _minimum_cpp_standard then
      validateCompiler compiler version
    else .configurationError
  | Option.none => validateCompiler compiler version

/-! ## Source patching: `_patch_sources` -/

/-- Python `content.replace(search, replace)`, fuelled so that it is
structurally recursive: scan left to right, replacing every non-overlapping
occurrence of `search`.  The fuel only needs to dominate `content.length`. -/
def pyReplaceAux : Nat → List Char → List Char → List Char → List Char
  | 0, _, _, s => s
  | fuel + 1, k, v, s =>
    if k ≠ [] ∧ k <+: s then v ++ pyReplaceAux fuel k v (s.drop k.length)
    else
      match s with
      | [] => []
      | c :: t => c :: pyReplaceAux fuel k v t

/-- Python `content.replace(search, replace)`. -/
def pyReplace (content search replace : List Char) : List Char :=
  pyReplaceAux content.length search replace content

/-- The error raised by the patch applier when a strict rule's search text is
missing (`ConanException` in conan, `PatchError` in the spec). -/
inductive PatchError where
  | matchNotFound
deriving DecidableEq, Repr

/-- Modelled from the spec: `conan.tools.files.replace_in_file` is not part of
the recipe's sources.  Per the spec's patch-rule contract it performs a
literal substring replacement on the file content; when the search text is
absent it raises `PatchError` if `strict` and silently skips otherwise.
(The conan API's `strict` parameter defaults to true; the recipe passes
`strict=False` explicitly for the CMakeLists rules and leaves the default for
the config-header rule.) -/
def replace_in_file (strict : Bool) (search rep content : List Char) :
    Except PatchError (List Char) :=
  if search <:+: content then .ok (pyReplace content search rep)
  else if strict then .error .matchNotFound
  else .ok content

/-- A literal find/replace pair. -/
abbrev PatchRule := List Char × List Char

/-- One `strict=False` replacement, as a pure content transformation. -/
def applyRule (s : List Char) (r : PatchRule) : List Char :=
  if r.1 <:+: s then pyReplace s r.1 r.2 else s

/-- The `strict=False` replacement loop over a rule list. -/
def applyRules (s : List Char) (rs : List PatchRule) : List Char :=
  rs.foldl applyRule s

/-- The `replace_mapping` dictionary of `_patch_sources`, in insertion
order. -/
def replace_mapping : List PatchRule :=
  [("FREETYPE_FOUND".data, "Freetype_FOUND".data),
   ("FREETYPE_INCLUDE_DIRS".data, "Freetype_INCLUDE_DIRS".data),
   ("FREETYPE_LINK_DIRS".data, "Freetype_LINK_DIRS".data),
   ("FREETYPE_LIBRARY".data, "Freetype_LIBRARIES".data),
   ("FREETYPE_LIBRARIES".data, "Freetype_LIBRARIES".data),
   ("LUA_FOUND".data, "lua_FOUND".data),
   ("LUA_INCLUDE_DIR".data, "lua_INCLUDE_DIR".data),
   ("LUA_LIBRARIES".data, "lua_LIBRARIES".data),
   ("if(PkgHelpers_AVAILABLE)".data, "if(FALSE)".data)]

/-- The search text of the conditional `Config.h` patch. -/
def robinHoodSearch : List Char := "\"../Core/Containers/robin_hood.h\"".data

/-- The replacement text of the conditional `Config.h` patch. -/
def robinHoodReplace : List Char := "<robin_hood.h>".data

/-- The two files `_patch_sources` touches: `CMakeLists.txt` and
`Include/RmlUi/Config/Config.h`, as their contents. -/
structure SourceTree where
  cmakelists : List Char
  config : List Char
deriving DecidableEq, Repr

/-- The loop `for key, value in replace_mapping.items(): replace_in_file(...,
strict=False)` over the CMakeLists content. -/
def foldReplacements : List PatchRule → List Char → Except PatchError (List Char)
  | [], s => .ok s
  | (k, v) :: rest, s => do
    let s' ← replace_in_file false k v s
    foldReplacements rest s'

/-- `_patch_sources`: the nine `strict=False` replacements on
`CMakeLists.txt`, then, when `with_thirdparty_containers` is set, the strict
robin-hood include replacement on `Config.h`. -/
def _patch_sources (with_thirdparty_containers : Bool) (t : SourceTree) :
    Except PatchError SourceTree := do
  let cm ← foldReplacements replace_mapping t.cmakelists
  if with_thirdparty_containers then
    let cfg ← replace_in_file true robinHoodSearch robinHoodReplace t.config
    pure ⟨cm, cfg⟩
  else
    pure ⟨cm, t.config⟩

/-! ## Non-interference conditions for literal replacement -/

/-- Some nonempty suffix of `x` is a prefix of `y`. -/
abbrev OverlapSP (x y : List Char) : Prop :=
  ∃ n, n < x.length ∧ x.drop n <+: y

/-- Conditions under which replacing a search text by `r.2` can neither
create a new occurrence of `K` spanning a replacement boundary nor leave one
inside the inserted text. -/
abbrev NoCreate (K : List Char) (r : PatchRule) : Prop :=
  ¬ OverlapSP K r.2 ∧ ¬ (r.2 <:+: K) ∧ ¬ OverlapSP r.2 K ∧ ¬ (K <:+: r.2)

/-- A rule list whose keys are nonempty, whose rules cannot recreate their
own key, and where no later rule can recreate an earlier rule's key. -/
abbrev GoodRules (rs : List PatchRule) : Prop :=
  (∀ r ∈ rs, r.1 ≠ [] ∧ NoCreate r.1 r) ∧
  rs.Pairwise (fun a b => NoCreate a.1 b)

/-- The spec's description of the `CUSTOM_INCLUDE_DIRS` value: the
dependency's include directories, each escaped, joined with the `;`
delimiter. -/
def specCustomIncludeDirs (dirs : List String) : String :=
  String.intercalate ";" (dirs.map reEscape)

/-- The spec's rule for `NO_FONT_INTERFACE_DEFAULT`: true exactly when the
`font_interface` value is the `none` sentinel. -/
def specNoFontInterfaceDefault (f : FontInterface) : Bool :=
  f == FontInterface.none

/-! ## Supporting lemmas -/

theorem reEscapeList_append (a b : List Char) :
    reEscapeList (a ++ b) = reEscapeList a ++ reEscapeList b := by
  induction a with
  | nil => rfl
  | cons c t ih =>
    show reEscapeChar c ++ reEscapeList (t ++ b) = (reEscapeChar c ++ reEscapeList t) ++ reEscapeList b
    rw [ih, List.append_assoc]

/-- If no nonempty suffix of `K` is a prefix of `v` and `v` is not an infix
of `K`, then any nonempty suffix of `K` that is a prefix of the replaced text
was already a prefix of the original text. -/
theorem prefix_through_pyReplaceAux {K v : List Char}
    (h1 : ¬ OverlapSP K v) (h2 : ¬ (v <:+: K)) (k : List Char) :
    ∀ fuel s b, s.length ≤ fuel → b ≠ [] → b <:+ K →
      b <+: pyReplaceAux fuel k v s → b <+: s := by
  intro fuel
  induction fuel with
  | zero => intro s b _ _ _ hp; exact hp
  | succ fuel ih =>
    intro s b hlen hb hbK hp
    simp only [pyReplaceAux] at hp
    by_cases hc : k ≠ [] ∧ k <+: s
    · rw [if_pos hc] at hp
      rcases le_or_lt b.length v.length with hbl | hbl
      · have hbv : b <+: v := (List.isPrefix_append_of_length hbl).mp hp
        exfalso
        apply h1
        refine ⟨K.length - b.length, ?_, ?_⟩
        · have hble : b.length ≤ K.length := hbK.length_le
          have hpos : 0 < b.length := List.length_pos.mpr hb
          omega
        · rw [← List.suffix_iff_eq_drop.mp hbK]
          exact hbv
      · have hvb : v <+: b :=
          List.prefix_of_prefix_length_le (List.prefix_append v _) hp (le_of_lt hbl)
        exact absurd (hvb.isInfix.trans hbK.isInfix) h2
    · rw [if_neg hc] at hp
      cases s with
      | nil => exact absurd (List.prefix_nil.mp hp) hb
      | cons c t =>
        cases b with
        | nil => exact absurd rfl hb
        | cons b0 b' =>
          rw [List.cons_prefix_cons] at hp
          obtain ⟨hb0, hp'⟩ := hp
          subst hb0
          by_cases hb' : b' = []
          · subst hb'
            exact List.cons_prefix_cons.mpr ⟨rfl, List.nil_prefix⟩
          · have hbK' : b' <:+ K := (List.suffix_cons b0 b').trans hbK
            have hlen' : t.length ≤ fuel := by
              simp only [List.length_cons] at hlen
              omega
            exact List.cons_prefix_cons.mpr ⟨rfl, ih t b' hlen' hb' hbK' hp'⟩

/-- Core non-interference property: if `K` either is the search text or does
not occur in the input, then `K` does not occur in the replaced text. -/
theorem not_infix_pyReplaceAux {K v k : List Char}
    (hK : K ≠ []) (h1 : ¬ OverlapSP K v) (h2 : ¬ (v <:+: K))
    (h3 : ¬ OverlapSP v K) (h4 : ¬ (K <:+: v)) :
    ∀ fuel s, s.length ≤ fuel → (K = k ∨ ¬ K <:+: s) →
      ¬ K <:+: pyReplaceAux fuel k v s := by
  intro fuel
  induction fuel with
  | zero =>
    intro s hlen _ hinf
    have hs : s = [] := List.eq_nil_of_length_eq_zero (Nat.le_zero.mp hlen)
    subst hs
    exact hK (List.infix_nil.mp hinf)
  | succ fuel ih =>
    intro s hlen hd hinf
    simp only [pyReplaceAux] at hinf
    by_cases hc : k ≠ [] ∧ k <+: s
    · rw [if_pos hc] at hinf
      obtain ⟨l, r, hlr⟩ := hinf
      rcases le_or_lt v.length l.length with hvl | hvl
      · have hlp : l <+: v ++ pyReplaceAux fuel k v (s.drop k.length) :=
          ⟨K ++ r, by rw [← hlr]; simp [List.append_assoc]⟩
        have hvlp : v <+: l :=
          List.prefix_of_prefix_length_le (List.prefix_append v _) hlp hvl
        obtain ⟨l', hl'⟩ := hvlp
        subst hl'
        have hXeq : (l' ++ K) ++ r = pyReplaceAux fuel k v (s.drop k.length) := by
          have hx : v ++ ((l' ++ K) ++ r) = v ++ pyReplaceAux fuel k v (s.drop k.length) := by
            rw [← hlr]
            simp [List.append_assoc]
          exact List.append_cancel_left hx
        have hKX : K <:+: pyReplaceAux fuel k v (s.drop k.length) := ⟨l', r, hXeq⟩
        have hd' : K = k ∨ ¬ K <:+: s.drop k.length := by
          rcases hd with hd | hd
          · exact Or.inl hd
          · exact Or.inr fun h => hd (h.trans (List.drop_suffix _ _).isInfix)
        have hlen' : (s.drop k.length).length ≤ fuel := by
          have hkpos : 0 < k.length := List.length_pos.mpr hc.1
          rw [List.length_drop]
          omega
        exact ih _ hlen' hd' hKX
      · have hlp : l <+: v := by
          apply List.prefix_of_prefix_length_le
            ⟨K ++ r, by rw [← hlr]; simp [List.append_assoc]⟩
            (List.prefix_append v _) (le_of_lt hvl)
        have hveq : v = l ++ v.drop l.length := by
          conv_lhs => rw [← List.take_append_drop l.length v]
          rw [← List.prefix_iff_eq_take.mp hlp]
        have hKr : K ++ r = v.drop l.length ++ pyReplaceAux fuel k v (s.drop k.length) := by
          have hx : l ++ (K ++ r) =
              l ++ (v.drop l.length ++ pyReplaceAux fuel k v (s.drop k.length)) := by
            rw [← List.append_assoc, hlr, ← List.append_assoc, ← hveq]
          exact List.append_cancel_left hx
        rcases le_or_lt (v.drop l.length).length K.length with hmK | hmK
        · have hmp : v.drop l.length <+: K :=
            List.prefix_of_prefix_length_le
              ⟨pyReplaceAux fuel k v (s.drop k.length), hKr.symm⟩
              (List.prefix_append K r) hmK
          exact h3 ⟨l.length, hvl, hmp⟩
        · have hKp : K <+: v.drop l.length :=
            List.prefix_of_prefix_length_le (List.prefix_append K r)
              ⟨pyReplaceAux fuel k v (s.drop k.length), hKr.symm⟩ (le_of_lt hmK)
          exact h4 (hKp.isInfix.trans (List.drop_suffix l.length v).isInfix)
    · rw [if_neg hc] at hinf
      cases s with
      | nil =>
        replace hinf : K <:+: ([] : List Char) := hinf
        exact hK (List.infix_nil.mp hinf)
      | cons c t =>
        replace hinf : K <:+: c :: pyReplaceAux fuel k v t := hinf
        obtain ⟨l, r, hlr⟩ := hinf
        have hlen' : t.length ≤ fuel := by
          simp only [List.length_cons] at hlen
          omega
        cases l with
        | nil =>
          rw [List.nil_append] at hlr
          cases K with
          | nil => exact hK rfl
          | cons K0 K' =>
            rw [List.cons_append] at hlr
            injection hlr with he0 he1
            subst he0
            have hKs : (K0 :: K') <+: K0 :: t := by
              by_cases hK' : K' = []
              · subst hK'
                exact List.cons_prefix_cons.mpr ⟨rfl, List.nil_prefix⟩
              · have hK'p : K' <+: pyReplaceAux fuel k v t := ⟨r, he1⟩
                have hK's : K' <:+ K0 :: K' := List.suffix_cons K0 K'
                exact List.cons_prefix_cons.mpr
                  ⟨rfl, prefix_through_pyReplaceAux h1 h2 k fuel t K' hlen' hK' hK's hK'p⟩
            rcases hd with hd | hd
            · exact hc ⟨by rw [← hd]; exact hK, by rw [← hd]; exact hKs⟩
            · exact hd hKs.isInfix
        | cons c0 l' =>
          rw [List.cons_append, List.cons_append] at hlr
          injection hlr with he0 he1
          have hKX : K <:+: pyReplaceAux fuel k v t := ⟨l', r, he1⟩
          have hd' : K = k ∨ ¬ K <:+: t := by
            rcases hd with hd | hd
            · exact Or.inl hd
            · exact Or.inr fun h => hd (h.trans (List.suffix_cons c t).isInfix)
          exact ih t hlen' hd' hKX

theorem pyListLt_iff_lex (as_ bs : List Int) :
    pyListLt as_ bs = true ↔ List.Lex (· < ·) as_ bs := by
  induction as_ generalizing bs with
  | nil =>
    cases bs with
    | nil =>
      simp only [pyListLt, Bool.false_eq_true, false_iff]
      exact List.Lex.not_nil_right _ _
    | cons b bs =>
      simp only [pyListLt, true_iff]
      exact List.Lex.nil
  | cons a as_ ih =>
    cases bs with
    | nil =>
      simp only [pyListLt, Bool.false_eq_true, false_iff]
      exact List.Lex.not_nil_right _ _
    | cons b bs =>
      simp only [pyListLt]
      rcases lt_trichotomy a b with h | h | h
      · simp only [if_pos h, true_iff]
        exact List.Lex.rel h
      · subst h
        rw [if_neg (lt_irrefl a), if_neg (lt_irrefl a), ih bs]
        constructor
        · exact List.Lex.cons
        · intro hl
          cases hl with
          | rel hr => exact absurd hr (lt_irrefl a)
          | cons hl' => exact hl'
      · rw [if_neg (asymm h), if_pos h]
        simp only [Bool.false_eq_true, false_iff]
        intro hl
        cases hl with
        | rel hr => exact absurd hr (asymm h)
        | cons hl' => exact absurd h (lt_irrefl a)

theorem pyIntComponents_isSome (cs : List (List Char)) :
    (pyIntComponents cs).isSome ↔ ∀ c ∈ cs, (pyInt c).isSome := by
  induction cs with
  | nil => simp [pyIntComponents]
  | cons c rest ih =>
    simp only [pyIntComponents, List.mem_cons]
    cases hc : pyInt c with
    | none =>
      simp only [Option.isSome_none, Bool.false_eq_true, false_iff]
      intro h
      have := h c (Or.inl rfl)
      rw [hc] at this
      simp at this
    | some n =>
      cases hr : pyIntComponents rest with
      | none =>
        simp only [Option.isSome_none, Bool.false_eq_true, false_iff]
        intro h
        have : (pyIntComponents rest).isSome := by
          rw [ih]
          intro d hd
          exact h d (Or.inr hd)
        rw [hr] at this
        simp at this
      | some l =>
        simp only [Option.isSome_some, true_iff]
        intro d hd
        rcases hd with hd | hd
        · subst hd; rw [hc]; rfl
        · have : (pyIntComponents rest).isSome := by rw [hr]; rfl
          rw [ih] at this
          exact this d hd

theorem not_infix_applyRule {K s : List Char} {r : PatchRule}
    (hK : K ≠ []) (hnc : NoCreate K r) (hd : K = r.1 ∨ ¬ K <:+: s) :
    ¬ K <:+: applyRule s r := by
  unfold applyRule
  split_ifs with h
  · exact not_infix_pyReplaceAux hK hnc.1 hnc.2.1 hnc.2.2.1 hnc.2.2.2
      s.length s le_rfl hd
  · rcases hd with hd | hd
    · subst hd; exact h
    · exact hd

theorem not_infix_applyRules {K : List Char} (hK : K ≠ []) :
    ∀ (rs : List PatchRule) (s : List Char), (∀ r ∈ rs, NoCreate K r) →
      ¬ K <:+: s → ¬ K <:+: applyRules s rs := by
  intro rs
  induction rs with
  | nil => intro s _ hs; exact hs
  | cons a rest ih =>
    intro s hnc hs
    show ¬ K <:+: applyRules (applyRule s a) rest
    exact ih _ (fun r hr => hnc r (List.mem_cons_of_mem a hr))
      (not_infix_applyRule hK (hnc a (List.mem_cons_self a rest)) (Or.inr hs))

/-- After one pass of a good rule list, none of its keys occurs any more. -/
theorem keys_dead : ∀ (rs : List PatchRule), GoodRules rs →
    ∀ s, ∀ r ∈ rs, ¬ r.1 <:+: applyRules s rs := by
  intro rs
  induction rs with
  | nil => intro _ s r hr; exact absurd hr (List.not_mem_nil r)
  | cons a rest ih =>
    intro hg s r hr
    show ¬ r.1 <:+: applyRules (applyRule s a) rest
    rcases List.mem_cons.mp hr with hr | hr
    · subst hr
      have hKne : r.1 ≠ [] := (hg.1 r (List.mem_cons_self r rest)).1
      have hself : NoCreate r.1 r := (hg.1 r (List.mem_cons_self r rest)).2
      have hdead : ¬ r.1 <:+: applyRule s r :=
        not_infix_applyRule hKne hself (Or.inl rfl)
      have hcross : ∀ r' ∈ rest, NoCreate r.1 r' :=
        (List.pairwise_cons.mp hg.2).1
      exact not_infix_applyRules hKne rest _ hcross hdead
    · have hg' : GoodRules rest :=
        ⟨fun r' hr' => hg.1 r' (List.mem_cons_of_mem a hr'),
         (List.pairwise_cons.mp hg.2).2⟩
      exact ih hg' (applyRule s a) r hr

theorem applyRules_of_no_keys : ∀ (rs : List PatchRule) (s : List Char),
    (∀ r ∈ rs, ¬ r.1 <:+: s) → applyRules s rs = s := by
  intro rs
  induction rs with
  | nil => intro s _; rfl
  | cons a rest ih =>
    intro s h
    have ha : applyRule s a = s := by
      unfold applyRule
      rw [if_neg (h a (List.mem_cons_self a rest))]
    show applyRules (applyRule s a) rest = s
    rw [ha]
    exact ih s (fun r hr => h r (List.mem_cons_of_mem a hr))

/-- A good rule list is idempotent on every content. -/
theorem applyRules_idem (rs : List PatchRule) (hg : GoodRules rs)
    (s : List Char) :
    applyRules (applyRules s rs) rs = applyRules s rs :=
  applyRules_of_no_keys rs _ (keys_dead rs hg s)

/-- The nine CMakeLists rules satisfy the non-interference conditions. -/
theorem replace_mapping_good : GoodRules replace_mapping := by decide

/-- The strict robin-hood rule satisfies the non-interference conditions. -/
theorem robinHood_good :
    robinHoodSearch ≠ [] ∧
      NoCreate robinHoodSearch (robinHoodSearch, robinHoodReplace) := by decide

theorem replace_in_file_false (k v s : List Char) :
    replace_in_file false k v s = Except.ok (applyRule s (k, v)) := by
  by_cases h : k <:+: s <;> simp [replace_in_file, applyRule, h]

theorem foldReplacements_ok (rs : List PatchRule) :
    ∀ s, foldReplacements rs s = Except.ok (applyRules s rs) := by
  induction rs with
  | nil => intro s; rfl
  | cons a rest ih =>
    intro s
    obtain ⟨k, v⟩ := a
    show (do
      let s' ← replace_in_file false k v s
      foldReplacements rest s') = _
    rw [replace_in_file_false]
    show foldReplacements rest (applyRule s (k, v)) = _
    rw [ih]
    rfl

theorem patch_sources_false_eq (t : SourceTree) :
    _patch_sources false t =
      Except.ok ⟨applyRules t.cmakelists replace_mapping, t.config⟩ := by
  unfold _patch_sources
  rw [foldReplacements_ok]
  rfl

theorem patch_sources_true_eq (t : SourceTree) :
    _patch_sources true t =
      if robinHoodSearch <:+: t.config then
        Except.ok ⟨applyRules t.cmakelists replace_mapping,
          pyReplace t.config robinHoodSearch robinHoodReplace⟩
      else Except.error PatchError.matchNotFound := by
  unfold _patch_sources
  rw [foldReplacements_ok]
  show (do
    let cfg ← replace_in_file true robinHoodSearch robinHoodReplace t.config
    pure (⟨applyRules t.cmakelists replace_mapping, cfg⟩ : SourceTree)) = _
  unfold replace_in_file
  by_cases h : robinHoodSearch <:+: t.config
  · rw [if_pos h, if_pos h]
    rfl
  · rw [if_neg h, if_neg h]
    rfl

/-! ## Claim theorems -/

/-- C1: `lazy_lt_semver` splits both versions on `.`, converts the components
to integers, truncates both lists to the shorter length and compares the
truncated sequences lexicographically; in particular installed `"5"` is
accepted (not less) against minimum `"5.15"`, while `"4.9"` is rejected
(less) against minimum `"5"`. -/
theorem lazy_lt_semver_truncated_lex :
    (∀ v1 v2 l1 l2, versionInts v1 = some l1 → versionInts v2 = some l2 →
      (lazy_lt_semver v1 v2 = some true ↔
        List.Lex (· < ·) (l1.take (min l1.length l2.length))
          (l2.take (min l1.length l2.length)))) ∧
    lazy_lt_semver "5" "5.15" = some false ∧
    lazy_lt_semver "4.9" "5" = some true := by
  refine ⟨?_, by decide, by decide⟩
  intro v1 v2 l1 l2 h1 h2
  simp only [lazy_lt_semver, h1, h2, Option.bind_eq_bind, Option.some_bind,
    Option.some.injEq, pure]
  exact pyListLt_iff_lex _ _

/-- Witness for C1: the general lexicographic description evaluated at the
concrete pair `("5", "5.15")`. -/
theorem lazy_lt_semver_truncated_lex_witness :
    lazy_lt_semver "5" "5.15" = some true ↔
      List.Lex (· < ·) ([(5 : Int)].take (min [(5 : Int)].length [(5 : Int), 15].length))
        ([(5 : Int), 15].take (min [(5 : Int)].length [(5 : Int), 15].length)) :=
  lazy_lt_semver_truncated_lex.1 "5" "5.15" [5] [5, 15] (by decide) (by decide)

/-- C3 (code bug): the recipe publishes `NO_FONT_INTERFACE_DEFAULT` as
`self.options.font_interface is None`, an identity test that is false on the
conan option wrapper for every value, so the variable is always false — in
particular at `font_interface = None`, where the spec's rule requires
true. -/
theorem generate_no_font_interface_default_bug :
    (∀ (o : Options) (dirs : List String),
      (generate o dirs).lookup "NO_FONT_INTERFACE_DEFAULT" =
        some (TCValue.vBool false)) ∧
    specNoFontInterfaceDefault FontInterface.none = true ∧
    (generate { default_options with font_interface := FontInterface.none }
        []).lookup "NO_FONT_INTERFACE_DEFAULT" = some (TCValue.vBool false) :=
  ⟨fun _ _ => rfl, rfl, rfl⟩

/-- C4: after `config_options` and `configure`, `fPIC` is absent on Windows,
absent whenever `shared` is set, and present only off Windows with `shared`
unset. -/
theorem resolveOptions_fPIC (os : String) (o : Options) :
    (os = "Windows" → (resolveOptions os o).fPIC = Option.none) ∧
    (o.shared = true → (resolveOptions os o).fPIC = Option.none) ∧
    ((resolveOptions os o).fPIC ≠ Option.none →
      os ≠ "Windows" ∧ o.shared = false) := by
  unfold resolveOptions configure config_options
  split_ifs with h1 h2 h2 <;> simp_all

/-- Witness for C4: on Windows with the default options, `fPIC` is removed. -/
theorem resolveOptions_fPIC_witness :
    (resolveOptions "Windows" default_options).fPIC = Option.none :=
  (resolveOptions_fPIC "Windows" default_options).1 rfl

/-- C5: with the cppstd gate passing, `validate` raises
`ConanInvalidConfiguration` exactly when the compiler is in the minimum-version
table and `lazy_lt_semver` judges the installed version below the minimum;
an unknown compiler yields the warning outcome, not an error. -/
theorem validate_compiler_minimum (cppstd : Option Nat) (compiler version : String)
    (hcpp : ∀ n, cppstd = some n → _minimum_cpp_standard ≤ n) :
    (validate cppstd compiler version = ValidateOutcome.configurationError ↔
      ∃ mv, _minimum_compilers_version.lookup compiler = some mv ∧
        lazy_lt_semver version mv = some true) ∧
    (_minimum_compilers_version.lookup compiler = Option.none →
      validate cppstd compiler version = ValidateOutcome.ok true) := by
  have hv : validate cppstd compiler version = validateCompiler compiler version := by
    cases cppstd with
    | none => rfl
    | some n =>
      have := hcpp n rfl
      simp [validate, check_min_cppstd, this]
  rw [hv]
  unfold validateCompiler
  cases hl : _minimum_compilers_version.lookup compiler with
  | none => simp
  | some mv =>
    cases hz : lazy_lt_semver version mv with
    | none => simp [hz]
    | some b => cases b <;> simp [hz]

/-- Witness for C5: gcc 4.9 with no cppstd requirement is rejected, matching
the table entry `gcc ↦ 5`. -/
theorem validate_compiler_minimum_witness :
    (validate Option.none "gcc" "4.9" = ValidateOutcome.configurationError ↔
      ∃ mv, _minimum_compilers_version.lookup "gcc" = some mv ∧
        lazy_lt_semver "4.9" mv = some true) ∧
    (_minimum_compilers_version.lookup "gcc" = Option.none →
      validate Option.none "gcc" "4.9" = ValidateOutcome.ok true) :=
  validate_compiler_minimum Option.none "gcc" "4.9" (fun _ h => nomatch h)

/-- C7: the published libraries are the Lua bindings library exactly when
`with_lua_bindings` is set, followed by the debugger library and the core
library, in that order. -/
theorem package_info_libs_order (o : Options) :
    (package_info o).libs =
      if o.with_lua_bindings then ["RmlLua", "RmlDebugger", "RmlCore"]
      else ["RmlDebugger", "RmlCore"] := by
  obtain ⟨rtti, fi, fp, mm, sh, lua, tpc⟩ := o
  cases lua <;> cases mm <;> cases rtti <;> cases sh <;> cases tpc <;> rfl

/-- C8: each published define appears exactly under its option condition, and
the default option set publishes exactly the static-linkage define. -/
theorem package_info_defines_conditions :
    (∀ o : Options,
      (("RMLUI_MATRIX_ROW_MAJOR" ∈ (package_info o).defines) ↔
        o.matrix_mode = MatrixMode.row_major) ∧
      (("RMLUI_USE_CUSTOM_RTTI" ∈ (package_info o).defines) ↔
        o.enable_rtti_and_exceptions = false) ∧
      (("RMLUI_STATIC_LIB" ∈ (package_info o).defines) ↔ o.shared = false) ∧
      (("RMLUI_NO_THIRDPARTY_CONTAINERS" ∈ (package_info o).defines) ↔
        o.with_thirdparty_containers = false)) ∧
    (package_info default_options).defines = ["RMLUI_STATIC_LIB"] := by
  constructor
  · intro o
    obtain ⟨rtti, fi, fp, mm, sh, lua, tpc⟩ := o
    cases mm <;> cases rtti <;> cases sh <;> cases tpc <;> cases lua <;>
      simp [package_info]
  · rfl

/-- C9: the toolchain variable table maps each option as specified and fixes
the four constant variables. -/
theorem generate_variable_table (o : Options) (dirs : List String) :
    (generate o dirs).lookup "BUILD_LUA_BINDINGS" =
      some (TCValue.vBool o.with_lua_bindings) ∧
    (generate o dirs).lookup "BUILD_SAMPLES" = some (TCValue.vBool false) ∧
    (generate o dirs).lookup "CUSTOM_CONFIGURATION" = some (TCValue.vBool true) ∧
    (generate o dirs).lookup "DISABLE_RTTI_AND_EXCEPTIONS" =
      some (TCValue.vBool (!o.enable_rtti_and_exceptions)) ∧
    (generate o dirs).lookup "ENABLE_PRECOMPILED_HEADERS" =
      some (TCValue.vBool true) ∧
    (generate o dirs).lookup "ENABLE_TRACY_PROFILING" =
      some (TCValue.vBool false) ∧
    ((generate o dirs).lookup "MATRIX_ROW_MAJOR" = some (TCValue.vBool true) ↔
      o.matrix_mode = MatrixMode.row_major) ∧
    (generate o dirs).lookup "NO_THIRDPARTY_CONTAINERS" =
      some (TCValue.vBool (!o.with_thirdparty_containers)) := by
  refine ⟨rfl, rfl, rfl, rfl, rfl, rfl, ?_, rfl⟩
  cases h : o.matrix_mode <;> simp [generate, List.lookup, h] <;> rfl

/-- Witness for C9: the table instantiated at the default options. -/
theorem generate_variable_table_witness :
    (generate default_options []).lookup "BUILD_LUA_BINDINGS" =
      some (TCValue.vBool default_options.with_lua_bindings) ∧
    (generate default_options []).lookup "BUILD_SAMPLES" = some (TCValue.vBool false) ∧
    (generate default_options []).lookup "CUSTOM_CONFIGURATION" = some (TCValue.vBool true) ∧
    (generate default_options []).lookup "DISABLE_RTTI_AND_EXCEPTIONS" =
      some (TCValue.vBool (!default_options.enable_rtti_and_exceptions)) ∧
    (generate default_options []).lookup "ENABLE_PRECOMPILED_HEADERS" =
      some (TCValue.vBool true) ∧
    (generate default_options []).lookup "ENABLE_TRACY_PROFILING" =
      some (TCValue.vBool false) ∧
    ((generate default_options []).lookup "MATRIX_ROW_MAJOR" = some (TCValue.vBool true) ↔
      default_options.matrix_mode = MatrixMode.row_major) ∧
    (generate default_options []).lookup "NO_THIRDPARTY_CONTAINERS" =
      some (TCValue.vBool (!default_options.with_thirdparty_containers)) :=
  generate_variable_table default_options []

/-- Counterexample to C10 as stated: `"5_0"` and `" 5"` are not decimal
integer numerals, yet Python `int` parses them (`int("5_0") = 50`), so the
comparison returns a result instead of raising a conversion error. -/
theorem lazy_lt_semver_nonnumeral_result :
    lazy_lt_semver "5_0" "5" = some false ∧
    lazy_lt_semver " 5" "5" = some false :=
  ⟨by decide, by decide⟩

/-- C10 (amended): `lazy_lt_semver` returns a result exactly when every
`.`-separated component of both version strings parses under Python `int`'s
literal syntax — optional surrounding whitespace, an optional sign, and a
nonempty run of Unicode decimal digits with single underscores permitted
between digits.  Components outside that syntax (such as `"5.1-beta"` or the
empty component) make the conversion raise an uncaught `ValueError`
(modelled as `none`), which `validate` surfaces rather than a
`ConanInvalidConfiguration`; components such as `"5_0"` or `" 5"`, though
not plain decimal numerals, are parsed and yield a result. -/
theorem lazy_lt_semver_totality :
    (∀ v1 v2 : String, (lazy_lt_semver v1 v2).isSome ↔
      ((∀ c ∈ pySplit '.' v1.data, (pyInt c).isSome) ∧
       (∀ c ∈ pySplit '.' v2.data, (pyInt c).isSome))) ∧
    lazy_lt_semver "5.1-beta" "5" = Option.none ∧
    lazy_lt_semver "" "5" = Option.none ∧
    lazy_lt_semver "5_0" "5" = some false ∧
    lazy_lt_semver " 5" "5" = some false ∧
    validate Option.none "gcc" "5.1-beta" = ValidateOutcome.valueError := by
  refine ⟨?_, by decide, by decide, by decide, by decide, by decide⟩
  intro v1 v2
  unfold lazy_lt_semver versionInts
  cases h1 : pyIntComponents (pySplit '.' v1.data) with
  | none =>
    simp only [Option.bind_eq_bind, Option.none_bind, Option.isSome_none,
      Bool.false_eq_true, false_iff]
    intro ⟨ha, _⟩
    have := (pyIntComponents_isSome (pySplit '.' v1.data)).2 ha
    rw [h1] at this
    simp at this
  | some l1 =>
    cases h2 : pyIntComponents (pySplit '.' v2.data) with
    | none =>
      simp only [Option.bind_eq_bind, Option.some_bind, Option.none_bind,
        Option.isSome_none, Bool.false_eq_true, false_iff]
      intro ⟨_, hb⟩
      have := (pyIntComponents_isSome (pySplit '.' v2.data)).2 hb
      rw [h2] at this
      simp at this
    | some l2 =>
      simp only [Option.bind_eq_bind, Option.some_bind, pure, Option.isSome_some,
        true_iff]
      constructor
      · exact (pyIntComponents_isSome _).1 (by rw [h1]; rfl)
      · exact (pyIntComponents_isSome _).1 (by rw [h2]; rfl)

/-- Witness for C10: the totality criterion evaluated at `("5", "4.9")`. -/
theorem lazy_lt_semver_totality_witness :
    (lazy_lt_semver "5" "4.9").isSome ↔
      ((∀ c ∈ pySplit '.' ("5" : String).data, (pyInt c).isSome) ∧
       (∀ c ∈ pySplit '.' ("4.9" : String).data, (pyInt c).isSome)) :=
  lazy_lt_semver_totality.1 "5" "4.9"

/-- C2 (amended): with `with_thirdparty_containers=false` a second run of
`_patch_sources` reproduces the first run's output and completes without
error; with `with_thirdparty_containers=true` the second run always fails
with `PatchError`, because the strict `Config.h` search text no longer
matches once replaced. -/
theorem patch_sources_twice (tpc : Bool) (t t2 : SourceTree)
    (h : _patch_sources tpc t = Except.ok t2) :
    _patch_sources tpc t2 =
      if tpc then Except.error PatchError.matchNotFound else Except.ok t2 := by
  cases tpc with
  | false =>
    rw [patch_sources_false_eq] at h
    injection h with h
    subst h
    rw [patch_sources_false_eq]
    dsimp only
    rw [applyRules_idem replace_mapping replace_mapping_good]
    rfl
  | true =>
    rw [patch_sources_true_eq] at h
    by_cases hc : robinHoodSearch <:+: t.config
    · rw [if_pos hc] at h
      injection h with h
      subst h
      rw [patch_sources_true_eq]
      dsimp only
      have hdead : ¬ robinHoodSearch <:+:
          pyReplace t.config robinHoodSearch robinHoodReplace :=
        not_infix_pyReplaceAux robinHood_good.1 robinHood_good.2.1
          robinHood_good.2.2.1 robinHood_good.2.2.2.1 robinHood_good.2.2.2.2
          t.config.length t.config le_rfl (Or.inl rfl)
      rw [if_neg hdead]
      rfl
    · rw [if_neg hc] at h
      exact absurd h (by simp)

/-- Witness for C2: a tree the nine non-strict rules leave unchanged, run
twice without the conditional patch. -/
theorem patch_sources_twice_witness :
    _patch_sources false ⟨['x'], ['y']⟩ = Except.ok (⟨['x'], ['y']⟩ : SourceTree) ∧
    _patch_sources false (⟨['x'], ['y']⟩ : SourceTree) =
      (if (false : Bool) then Except.error PatchError.matchNotFound
       else Except.ok (⟨['x'], ['y']⟩ : SourceTree)) :=
  ⟨rfl, patch_sources_twice false ⟨['x'], ['y']⟩ ⟨['x'], ['y']⟩ rfl⟩

/-- Counterexample to C2 as stated: with `with_thirdparty_containers=true`
and a config that contains the robin-hood include, the first application
succeeds but the second raises `PatchError` instead of completing. -/
theorem patch_sources_not_idempotent :
    _patch_sources true ⟨[], robinHoodSearch⟩ =
      Except.ok (⟨[], robinHoodReplace⟩ : SourceTree) ∧
    _patch_sources true (⟨[], robinHoodReplace⟩ : SourceTree) =
      Except.error PatchError.matchNotFound :=
  ⟨rfl, rfl⟩

/-- C6: the `CUSTOM_INCLUDE_DIRS` variable is the dependency's include
directories, each escaped with `re.escape`, joined with the `;` delimiter;
the escape is a per-character homomorphism that backslash-prefixes exactly
the regex-special characters. -/
theorem generate_custom_include_dirs :
    (∀ (o : Options) (dirs : List String),
      (generate o dirs).lookup "CUSTOM_INCLUDE_DIRS" =
        some (TCValue.vStr (specCustomIncludeDirs dirs))) ∧
    (∀ a b : List Char, reEscapeList (a ++ b) = reEscapeList a ++ reEscapeList b) ∧
    (∀ c : Char, reEscapeList [c] = if c ∈ reSpecialChars then ['\\', c] else [c]) := by
  refine ⟨fun o dirs => rfl, reEscapeList_append, fun c => ?_⟩
  show reEscapeChar c ++ [] = _
  rw [List.append_nil]
  rfl

/-- Witness for C6: the table row evaluated at a concrete directory list. -/
theorem generate_custom_include_dirs_witness :
    (generate default_options ["/a b"]).lookup "CUSTOM_INCLUDE_DIRS" =
      some (TCValue.vStr (specCustomIncludeDirs ["/a b"])) :=
  generate_custom_include_dirs.1 default_options ["/a b"]

/-- Witness for C7: the library order evaluated at the default options. -/
theorem package_info_libs_order_witness :
    (package_info default_options).libs =
      if default_options.with_lua_bindings then ["RmlLua", "RmlDebugger", "RmlCore"]
      else ["RmlDebugger", "RmlCore"] :=
  package_info_libs_order default_options

/-- Witness for C8: the define conditions evaluated at the default options. -/
theorem package_info_defines_conditions_witness :
    (("RMLUI_MATRIX_ROW_MAJOR" ∈ (package_info default_options).defines) ↔
      default_options.matrix_mode = MatrixMode.row_major) ∧
    (("RMLUI_USE_CUSTOM_RTTI" ∈ (package_info default_options).defines) ↔
      default_options.enable_rtti_and_exceptions = false) ∧
    (("RMLUI_STATIC_LIB" ∈ (package_info default_options).defines) ↔
      default_options.shared = false) ∧
    (("RMLUI_NO_THIRDPARTY_CONTAINERS" ∈ (package_info default_options).defines) ↔
      default_options.with_thirdparty_containers = false) :=
  package_info_defines_conditions.1 default_options

end Rmlui
